import Mathlib

/-
Verification of the list virtualization / pagination engine of the
inquisition terminal-prompt toolkit.

The definitions below are a shallow embedding of the Rust sources:
  * `src/discourse-ui/src/select/mod.rs` (the `List` trait and the `Select`
    pagination engine), and
  * `src/discourse-ui/src/prompt.rs` (the `Prompt` widget and its width
    arithmetic),
together with the `Layout` coordinate model from the ui crate.

Machine integers are modelled as `Nat`.  The `usize::MAX` and `u16::MAX`
sentinels are kept as explicit constants.  The one machine cast the engine
performs, `list.page_size() as u16`, is modelled with an explicit `% 2 ^ 16`.
Intermediate `u16` additions whose overflow would abort a debug build are
modelled with plain `Nat` addition; no claim below exercises heights anywhere
near `2 ^ 16`.  Rust panics that the engine can actually reach through its
public API (the `self.heights.as_ref().unwrap()` calls on an absent height
cache) are modelled by `Option`, with `none` standing for a panic.  Slice
indexing into the height cache is modelled with `getD _ 0`: whenever the cache
exists it was filled by `update_heights` with exactly `len` entries, and every
index the engine feeds it is below `len`, so the default is dead in any state
the engine reaches.
-/

namespace Inquisition

/-- `u16::MAX`, the initial value of the `height`, `page_start_height` and
`page_end_height` fields of a fresh `Select`. -/
def u16Max : Nat := 65535

/-- `usize::MAX`, the sentinel stored in `page_end` meaning "window not yet
computed". -/
def usizeMax : Nat := 2 ^ 64 - 1

/-- The part of an over-height item to render (`RenderRegion` in the ui
crate). -/
inductive RenderRegion
  | Top
  | Middle
  | Bottom
deriving DecidableEq, Repr

/-- The coordinate model (`Layout` in the ui crate): where the next glyph is
drawn and how much vertical space is allowed. -/
structure Layout where
  line_offset : Nat
  offset_x : Nat
  offset_y : Nat
  width : Nat
  height : Nat
  max_height : Nat
  render_region : RenderRegion
deriving DecidableEq, Repr

/-- The navigation subset of the `Movement` enum that `Select::handle_key`
consumes.  `Movement::try_from_key` lives outside the sources under
verification; `handle_key` below therefore takes its `Option Movement`
result directly. -/
inductive Movement
  | Up
  | Down
  | PageUp
  | PageDown
  | Home
  | End
deriving DecidableEq, Repr

/-- The read-only capability set of the `List` trait: `len`,
`is_selectable(i)`, `page_size()`, `should_loop()` and `height_at(i, layout)`.
`render_item` writes to the backend and is modelled separately with the
backend. -/
structure ListSpec where
  len : Nat
  is_selectable : Nat → Bool
  page_size : Nat
  should_loop : Bool
  height_at : Nat → Layout → Nat

/-- The memoized per-item heights together with the layout they were computed
against (the `Heights` struct). -/
structure Heights where
  heights : List Nat
  prev_layout : Layout

/-- The state of the pagination engine (the `Select<L>` struct).  The hovered
index `at` is named `at_` because `at` is a reserved word in Lean. -/
structure Select where
  first_selectable : Nat
  last_selectable : Nat
  at_ : Nat
  page_start : Nat
  page_end : Nat
  page_start_height : Nat
  page_end_height : Nat
  height : Nat
  heights : Option Heights
  list : ListSpec

/-- Scan `i, i + 1, ...` for at most `n` steps, returning the first index
satisfying `sel` (the shape of `(0..len).position(p)` when started at
`i = 0` with `n = len`). -/
def findFromAux (sel : Nat → Bool) : Nat → Nat → Option Nat
  | 0, _ => none
  | n + 1, i => if sel i then some i else findFromAux sel n (i + 1)

/-- `(0..len).position(|i| list.is_selectable(i))`: the first selectable
index. -/
def ListSpec.first_selectable? (l : ListSpec) : Option Nat :=
  findFromAux l.is_selectable l.len 0

/-- Scan `n - 1, n - 2, ..., 0` returning the first index satisfying `sel`
(the shape of `(0..n).rposition(p)`). -/
def rfindFrom (sel : Nat → Bool) : Nat → Option Nat
  | 0 => none
  | n + 1 => if sel n then some n else rfindFrom sel n

/-- `(0..len).rposition(|i| list.is_selectable(i))`: the last selectable
index. -/
def ListSpec.last_selectable? (l : ListSpec) : Option Nat :=
  rfindFrom l.is_selectable l.len

/-- `Select::new`.  The source panics (`expect` / `assert!`) when the list has
no selectable item or when `page_size() < 5`; both aborts are modelled by
`none`, so a `Select` value is never partially constructed. -/
def Select.new (list : ListSpec) : Option Select :=
  match list.first_selectable? with
  | none => none
  | some first =>
    match list.last_selectable? with
    | none => none
    | some last =>
      if list.page_size < 5 then none
      else
        some { first_selectable := first
               last_selectable := last
               height := u16Max
               page_start_height := u16Max
               page_end_height := u16Max
               heights := none
               at_ := first
               page_start := 0
               page_end := usizeMax
               list := list }

/-- `Select::page_size`: `self.list.page_size() as u16`, with the `usize` to
`u16` cast modelled by an explicit `% 2 ^ 16`. -/
def Select.page_size (s : Select) : Nat := s.list.page_size % 2 ^ 16

/-- `Select::is_paginating`: `self.height > self.page_size()`. -/
def Select.is_paginating (s : Select) : Bool :=
  decide (s.page_size < s.height)

/-- `Select::at_outside_page`: whether the hovered index is at or beyond a
boundary of the (possibly wrapped) window. -/
def Select.at_outside_page (s : Select) : Bool :=
  if s.page_start < s.page_end then
    decide (s.at_ ≤ s.page_start) || decide (s.page_end ≤ s.at_)
  else
    decide (s.at_ ≤ s.page_start) && decide (s.page_end ≤ s.at_)

/-- `Select::try_get_index`: the index `delta` steps from `at`, honoring
`should_loop()`; `none` when stepping past a non-looping boundary. -/
def Select.try_get_index (s : Select) (delta : Int) : Option Nat :=
  if 0 < delta then
    let res := s.at_ + delta.toNat
    if res < s.list.len then some res
    else if s.list.should_loop then some (res - s.list.len) else none
  else
    let d := (-delta).toNat
    if s.list.should_loop then
      some ((s.at_ + s.list.len - d) % s.list.len)
    else if d ≤ s.at_ then some (s.at_ - d) else none

/-- The `loop { at = (at + 1) % len; if selectable break }` scan inside
`next_selectable`.  The source loop terminates because at least one selectable
item exists; `len` steps of fuel visit every index once, so the fuel never
runs out in a constructed `Select`. -/
def ListSpec.scan_next (l : ListSpec) : Nat → Nat → Nat
  | 0, a => a
  | fuel + 1, a =>
    let a' := (a + 1) % l.len
    if l.is_selectable a' then a' else l.scan_next fuel a'

/-- The `loop { at = (len + at - 1) % len; if selectable break }` scan inside
`prev_selectable`, with the same fuel convention as `scan_next`. -/
def ListSpec.scan_prev (l : ListSpec) : Nat → Nat → Nat
  | 0, a => a
  | fuel + 1, a =>
    let a' := (l.len + a - 1) % l.len
    if l.is_selectable a' then a' else l.scan_prev fuel a'

/-- `Select::next_selectable`. -/
def Select.next_selectable (s : Select) : Nat :=
  if s.last_selectable ≤ s.at_ then
    if s.list.should_loop then s.first_selectable else s.last_selectable
  else
    s.list.scan_next s.list.len (min s.at_ s.list.len)

/-- `Select::prev_selectable`. -/
def Select.prev_selectable (s : Select) : Nat :=
  if s.at_ ≤ s.first_selectable then
    if s.list.should_loop then s.last_selectable else s.first_selectable
  else
    s.list.scan_prev s.list.len (min s.at_ s.list.len)

/-- `Select::update_heights`: refresh the memoized per-item heights.  A no-op
when a cache built against the same layout exists; otherwise every height is
recomputed via `height_at` with `line_offset` forced to 0 and summed into
`height`.  The stored key is the original layout, before the `line_offset`
reset, exactly as in the source. -/
def Select.update_heights (s : Select) (layout : Layout) : Select :=
  let layout0 : Layout := { layout with line_offset := 0 }
  let hs : List Nat := (List.range s.list.len).map (fun i => s.list.height_at i layout0)
  let recomputed : Select :=
    { s with heights := some { heights := hs, prev_layout := layout }, height := hs.sum }
  match s.heights with
  | some hc => if hc.prev_layout ≠ layout then recomputed else s
  | none => recomputed

/-- The candidate index sequence built inside `adjust_page`: the immediate
neighbor in `direction` (the direction moved from), then the single immediate
neighbor in the opposite direction (flagged `true`), then the remaining
neighbors `2 * direction, 3 * direction, ...` up to `max_height - 1` steps,
each dropped when `try_get_index` hits a non-looping boundary. -/
def Select.adjust_iter (s : Select) (direction : Int) (max_height : Nat) : List (Nat × Bool) :=
  ((s.try_get_index direction).map (fun i => (i, false))).toList
    ++ ((s.try_get_index (-direction)).map (fun i => (i, true))).toList
    ++ (List.range' 2 (max_height - 2)).filterMap
        (fun i => (s.try_get_index (direction * (i : Int))).map (fun j => (j, false)))

/-- One iteration of the `for (height_index, opposite_dir) in iter` loop of
`adjust_page`.  The accumulator is `(bound_a, bound_b, height)`.  The source
breaks out of the loop once `height >= max_height`; since `height` never
decreases, skipping the remaining elements is the same as breaking. -/
def adjust_step (heights : List Nat) (max_height : Nat)
    (acc : (Nat × Nat) × (Nat × Nat) × Nat) (c : Nat × Bool) : (Nat × Nat) × (Nat × Nat) × Nat :=
  let bound_a := acc.1
  let bound_b := acc.2.1
  let height := acc.2.2
  if max_height ≤ height then acc
  else
    let elem_height :=
      if c.2 then 1 else min (height + heights.getD c.1 0) max_height - height
    if c.2 then (bound_a, (c.1, elem_height), height + elem_height)
    else ((c.1, elem_height), bound_b, height + elem_height)

/-- `Select::adjust_page`: anchor the window at `at` and walk outward along
the candidate sequence, then write both boundaries and both boundary heights
together.  `none` models the `self.heights.as_ref().unwrap()` panic on an
absent cache, and the `unreachable!()` on a non-`Up`/`Down` movement. -/
def Select.adjust_page (s : Select) (moved : Movement) : Option Select :=
  match s.heights with
  | none => none
  | some hcache =>
    match moved with
    | Movement.Down | Movement.Up =>
      let direction : Int := if moved = Movement.Down then -1 else 1
      let heights := hcache.heights
      let max_height := s.page_size - 1
      let hat := heights.getD s.at_ 0
      let res := (s.adjust_iter direction max_height).foldl
        (adjust_step heights max_height) ((s.at_, hat), (s.at_, hat), hat)
      let bound_a := res.1
      let bound_b := res.2.1
      if moved = Movement.Down then
        some { s with page_start := bound_a.1, page_start_height := bound_a.2,
                      page_end := bound_b.1, page_end_height := bound_b.2 }
      else
        some { s with page_start := bound_b.1, page_start_height := bound_b.2,
                      page_end := bound_a.1, page_end_height := bound_a.2 }
    | _ => none

/-- One step of the candidate walk as claim C2 words it literally: every
consumed neighbor contributes its full natural height, except the single
opposite-direction neighbor which contributes exactly 1 line. -/
def adjust_step_claim (heights : List Nat) (max_height : Nat)
    (acc : (Nat × Nat) × (Nat × Nat) × Nat) (c : Nat × Bool) : (Nat × Nat) × (Nat × Nat) × Nat :=
  let bound_a := acc.1
  let bound_b := acc.2.1
  let height := acc.2.2
  if max_height ≤ height then acc
  else
    let elem_height := if c.2 then 1 else heights.getD c.1 0
    if c.2 then (bound_a, (c.1, elem_height), height + elem_height)
    else ((c.1, elem_height), bound_b, height + elem_height)

/-- Claim C2 read literally: the candidate window is anchored at `at` with its
own height, neighbors are consumed in the order of `adjust_iter`, every
neighbor contributes its full natural height except the single
opposite-direction neighbor (1 line), accumulation stops once the running
total reaches `page_size() - 1`, and the boundaries are assigned by the moved
direction. -/
def Select.adjust_page_claim (s : Select) (moved : Movement) : Option Select :=
  match s.heights with
  | none => none
  | some hcache =>
    match moved with
    | Movement.Down | Movement.Up =>
      let direction : Int := if moved = Movement.Down then -1 else 1
      let heights := hcache.heights
      let max_height := s.page_size - 1
      let hat := heights.getD s.at_ 0
      let res := (s.adjust_iter direction max_height).foldl
        (adjust_step_claim heights max_height) ((s.at_, hat), (s.at_, hat), hat)
      let bound_a := res.1
      let bound_b := res.2.1
      if moved = Movement.Down then
        some { s with page_start := bound_a.1, page_start_height := bound_a.2,
                      page_end := bound_b.1, page_end_height := bound_b.2 }
      else
        some { s with page_start := bound_b.1, page_start_height := bound_b.2,
                      page_end := bound_a.1, page_end_height := bound_a.2 }
    | _ => none

/-- One step of the candidate walk as the amended claim C2 words it: a
direction-chain neighbor contributes its natural height clipped to the
remaining budget `max_height - height`, so only the final consumed neighbor
can contribute less than its natural height; the single opposite-direction
neighbor still contributes exactly 1 line. -/
def adjust_step_amended (heights : List Nat) (max_height : Nat)
    (acc : (Nat × Nat) × (Nat × Nat) × Nat) (c : Nat × Bool) : (Nat × Nat) × (Nat × Nat) × Nat :=
  let bound_a := acc.1
  let bound_b := acc.2.1
  let height := acc.2.2
  if max_height ≤ height then acc
  else
    let elem_height :=
      if c.2 then 1 else min (heights.getD c.1 0) (max_height - height)
    if c.2 then (bound_a, (c.1, elem_height), height + elem_height)
    else ((c.1, elem_height), bound_b, height + elem_height)

/-- The amended claim C2 as a definition: identical to the literal reading
except that each direction-chain neighbor is clipped to the remaining
budget. -/
def Select.adjust_page_amended (s : Select) (moved : Movement) : Option Select :=
  match s.heights with
  | none => none
  | some hcache =>
    match moved with
    | Movement.Down | Movement.Up =>
      let direction : Int := if moved = Movement.Down then -1 else 1
      let heights := hcache.heights
      let max_height := s.page_size - 1
      let hat := heights.getD s.at_ 0
      let res := (s.adjust_iter direction max_height).foldl
        (adjust_step_amended heights max_height) ((s.at_, hat), (s.at_, hat), hat)
      let bound_a := res.1
      let bound_b := res.2.1
      if moved = Movement.Down then
        some { s with page_start := bound_a.1, page_start_height := bound_a.2,
                      page_end := bound_b.1, page_end_height := bound_b.2 }
      else
        some { s with page_start := bound_b.1, page_start_height := bound_b.2,
                      page_end := bound_a.1, page_end_height := bound_a.2 }
    | _ => none

/-- `Select::try_adjust_page`: only recompute the window when the hovered
index is at or beyond a boundary. -/
def Select.try_adjust_page (s : Select) (moved : Movement) : Option Select :=
  if s.at_outside_page then s.adjust_page moved else some s

/-- One iteration of the `for i in 1..heights.len()` loop in `init_page`.
`page_end_height` is clipped to the remaining budget while the running total
accumulates full natural heights, exactly as in the source.  The source
breaks once `height >= max_height`; `height` never decreases, so skipping is
the same as breaking. -/
def init_step (heights : List Nat) (max_height : Nat)
    (acc : Nat × Nat × Nat) (i : Nat) : Nat × Nat × Nat :=
  let height := acc.2.2
  if max_height ≤ height then acc
  else (i, min (height + heights.getD i 0) max_height - height, height + heights.getD i 0)

/-- `Select::init_page`: `page_start = 0` with the first item's full height;
when paginating, walk from index 1 with budget `page_size() - 1`; otherwise
the window spans the whole list.  `none` models the unwrap of an absent
height cache. -/
def Select.init_page (s : Select) : Option Select :=
  match s.heights with
  | none => none
  | some hcache =>
    let heights := hcache.heights
    let s1 : Select := { s with page_start := 0, page_start_height := heights.getD 0 0 }
    if s1.is_paginating then
      let max_height := s1.page_size - 1
      let res := (List.range' 1 (heights.length - 1)).foldl
        (init_step heights max_height) (s1.page_end, s1.page_end_height, heights.getD 0 0)
      some { s1 with page_end := res.1, page_end_height := res.2.1 }
    else
      some { s1 with page_end := s.list.len - 1,
                     page_end_height := heights.getD (s.list.len - 1) 0 }

/-- One step of the initial-window walk as claim C3 words it: accumulate
natural heights, and the touched item's visible height is its natural height
clipped to the remaining budget. -/
def init_step_claim (heights : List Nat) (max_height : Nat)
    (acc : Nat × Nat × Nat) (i : Nat) : Nat × Nat × Nat :=
  let height := acc.2.2
  if max_height ≤ height then acc
  else (i, min (heights.getD i 0) (max_height - height), height + heights.getD i 0)

/-- Claim C3 as a definition: `page_start = 0`; when paginating, walk items
from index 1 forward accumulating natural heights with budget
`page_size() - 1`, the last item touched becoming `page_end` with
`page_end_height` clipped to exactly fill the remaining budget; when not
paginating, `page_end = len - 1` with that item's full natural height. -/
def Select.init_page_claim (s : Select) : Option Select :=
  match s.heights with
  | none => none
  | some hcache =>
    let heights := hcache.heights
    let s1 : Select := { s with page_start := 0, page_start_height := heights.getD 0 0 }
    if s1.is_paginating then
      let max_height := s1.page_size - 1
      let res := (List.range' 1 (heights.length - 1)).foldl
        (init_step_claim heights max_height) (s1.page_end, s1.page_end_height, heights.getD 0 0)
      some { s1 with page_end := res.1, page_end_height := res.2.1 }
    else
      some { s1 with page_end := s.list.len - 1,
                     page_end_height := heights.getD (s.list.len - 1) 0 }

/-- The main `Movement::PageUp` branch of `handle_key`: step `at` back by one,
run `adjust_page(Down)`; if the window now starts at 0 with looping off, snap
to the first selectable item and recompute from scratch, else seat `at` at the
new `page_start` and advance to the next selectable item. -/
def Select.page_up_main (s : Select) : Option Select :=
  let s1 : Select := { s with at_ := (s.try_get_index (-1)).getD s.at_ }
  (s1.adjust_page Movement.Down).bind (fun s2 =>
    if s2.page_start = 0 ∧ s2.list.should_loop = false then
      ({ s2 with at_ := s2.first_selectable } : Select).init_page
    else
      let s3 : Select := { s2 with at_ := s2.page_start }
      some { s3 with at_ := s3.next_selectable })

/-- The main `Movement::PageDown` branch of `handle_key`: step `at` forward by
one, run `adjust_page(Up)`; if the window now ends at the last index, seat
`at` there, re-run `adjust_page(Down)` and land on the last selectable item,
else seat `at` at the new `page_end` and go back to the previous selectable
item. -/
def Select.page_down_main (s : Select) : Option Select :=
  let s1 : Select := { s with at_ := (s.try_get_index 1).getD s.at_ }
  (s1.adjust_page Movement.Up).bind (fun s2 =>
    if s2.page_end + 1 = s2.list.len then
      (({ s2 with at_ := s2.page_end } : Select).adjust_page Movement.Down).map
        (fun s3 => { s3 with at_ := s3.last_selectable })
    else
      let s3 : Select := { s2 with at_ := s2.page_end }
      some { s3 with at_ := s3.prev_selectable })

/-- The outcome of the movement `match` inside `handle_key`: an early
`return false`, a reachable panic, or a new state together with the `moved`
direction handed to the trailing `try_adjust_page`. -/
inductive HkOut
  | ret_false
  | panicked
  | moved (s : Select) (m : Movement)

/-- The `match movement` expression of `Select::handle_key`, computing the
state after the movement and the resulting `moved` direction. -/
def Select.hk_move (s : Select) (m : Movement) : HkOut :=
  match m with
  | Movement.Up =>
    if s.list.should_loop = true ∨ s.first_selectable < s.at_ then
      HkOut.moved { s with at_ := s.prev_selectable } Movement.Up
    else HkOut.ret_false
  | Movement.Down =>
    if s.list.should_loop = true ∨ s.at_ < s.last_selectable then
      HkOut.moved { s with at_ := s.next_selectable } Movement.Down
    else HkOut.ret_false
  | Movement.PageUp =>
    if s.is_paginating = false ∨ (s.list.should_loop = false ∧ s.page_start = 0) then
      if s.at_ ≤ s.first_selectable then HkOut.ret_false
      else HkOut.moved { s with at_ := s.first_selectable } Movement.Up
    else
      match s.page_up_main with
      | none => HkOut.panicked
      | some t => HkOut.moved t Movement.Up
  | Movement.PageDown =>
    if s.is_paginating = false ∨ (s.list.should_loop = false ∧ s.page_end + 1 = s.list.len) then
      if s.last_selectable ≤ s.at_ then HkOut.ret_false
      else HkOut.moved { s with at_ := s.last_selectable } Movement.Down
    else
      match s.page_down_main with
      | none => HkOut.panicked
      | some t => HkOut.moved t Movement.Down
  | Movement.Home =>
    if s.at_ ≠ s.first_selectable then
      HkOut.moved { s with at_ := s.first_selectable } Movement.Up
    else HkOut.ret_false
  | Movement.End =>
    if s.at_ ≠ s.last_selectable then
      HkOut.moved { s with at_ := s.last_selectable } Movement.Down
    else HkOut.ret_false

/-- `Select::handle_key`.  The argument is the result of
`Movement::try_from_key` (an unrecognized key is `none` and is not handled).
The returned `Bool` is the "was the event consumed" flag; `none` models a
panic inside the call. -/
def Select.handle_key (s : Select) (movement : Option Movement) : Option (Select × Bool) :=
  match movement with
  | none => some (s, false)
  | some m =>
    match s.hk_move m with
    | HkOut.ret_false => some (s, false)
    | HkOut.panicked => none
    | HkOut.moved t moved =>
      if t.is_paginating = true then
        (t.try_adjust_page moved).map (fun t2 => (t2, true))
      else some (t, true)

/-- A finite sequence of `handle_key` calls; a panic anywhere aborts the whole
run. -/
def Select.run_keys (s : Select) : List (Option Movement) → Option Select
  | [] => some s
  | m :: ms => (s.handle_key m).bind (fun p => p.1.run_keys ms)

/-- The `Widget::height` implementation for `Select` (named `widget_height`
here because the Lean name `Select.height` is taken by the field).  Returns
the reported height, the state after the call, and the layout after the call.
The `self.heights.as_ref().unwrap()` cannot fail because `update_heights` just
ran; the cache lookup is modelled with a default that is never taken. -/
def Select.widget_height (s : Select) (layout : Layout) : Nat × Select × Layout :=
  let s' := s.update_heights layout
  let hs := ((s'.heights.map Heights.heights).getD []).getD s'.at_ 0
  let h := (if layout.line_offset ≠ 0 then 1 else 0)
    + max (min s'.height s'.page_size) (hs + (if s'.is_paginating then 1 else 0))
  (h, s', { layout with line_offset := 0, offset_y := layout.offset_y + h })

/-- Modelled from the spec: the terminal backend capability of section 6 is an
external collaborator that is not part of the sources under verification.  It
is modelled as a budget of operations that succeed before every further
operation fails with a fixed error value, so a failing write can be placed
anywhere in the render sequence and "returned unchanged" is observable. -/
structure Backend where
  budget : Nat
  err : Nat
deriving DecidableEq, Repr

/-- A single backend operation (a styled write or a cursor move): consumes one
unit of budget or fails with the backend's error value. -/
def Backend.op (b : Backend) : Except Nat Backend :=
  if b.budget = 0 then Except.error b.err
  else Except.ok { b with budget := b.budget - 1 }

/-- Modelled from the spec: `List::render_item` draws one item into the
backend; it is external to the engine and is modelled as one backend
operation. -/
def render_item_op (b : Backend) : Except Nat Backend := b.op

/-- The per-index loop of `Select::render_in`: clip the boundary items
(`Bottom` region at `page_start`, `Top` region at `page_end`, full natural
height elsewhere), render the item, advance the vertical offset, and move the
cursor. -/
def Select.render_in_go (s : Select) (heights : List Nat) :
    List Nat → Layout → Backend → Except Nat (Layout × Backend)
  | [], layout, b => Except.ok (layout, b)
  | i :: rest, layout, b =>
    let layout :=
      if i = s.page_start then
        { layout with max_height := s.page_start_height, render_region := RenderRegion.Bottom }
      else if i = s.page_end then
        { layout with max_height := s.page_end_height, render_region := RenderRegion.Top }
      else
        { layout with max_height := heights.getD i 0 }
    match render_item_op b with
    | Except.error e => Except.error e
    | Except.ok b =>
      let layout := { layout with offset_y := layout.offset_y + layout.max_height }
      match b.op with
      | Except.error e => Except.error e
      | Except.ok b => s.render_in_go heights rest layout b

/-- `Select::render_in`: run the loop on a local copy of the layout and only
propagate `offset_y` back to the caller's layout. -/
def Select.render_in (s : Select) (iter : List Nat) (old_layout : Layout) (b : Backend) :
    Except Nat (Layout × Backend) :=
  match s.render_in_go ((s.heights.map Heights.heights).getD []) iter old_layout b with
  | Except.error e => Except.error e
  | Except.ok (layout, b) => Except.ok ({ old_layout with offset_y := layout.offset_y }, b)

/-- The backend-writing part of `Select::render`, after the height-cache
refresh and the lazy window computation: break the line when mid-line, render
the window (wrap-aware), and append the one-line footer when paginating. -/
def Select.render_body (s : Select) (layout : Layout) (b : Backend) :
    Except Nat (Layout × Backend) :=
  let step1 : Except Nat (Layout × Backend) :=
    if layout.line_offset ≠ 0 then
      match b.op with
      | Except.error e => Except.error e
      | Except.ok b =>
        Except.ok ({ layout with line_offset := 0, offset_y := layout.offset_y + 1 }, b)
    else Except.ok (layout, b)
  match step1 with
  | Except.error e => Except.error e
  | Except.ok (layout, b) =>
    let iter :=
      if s.page_end < s.page_start then
        List.range' s.page_start (s.list.len - s.page_start) ++ List.range (s.page_end + 1)
      else
        List.range' s.page_start (s.page_end + 1 - s.page_start)
    match s.render_in iter layout b with
    | Except.error e => Except.error e
    | Except.ok (layout, b) =>
      if s.is_paginating then
        match b.op with
        | Except.error e => Except.error e
        | Except.ok b =>
          let layout := { layout with offset_y := layout.offset_y + 1 }
          match b.op with
          | Except.error e => Except.error e
          | Except.ok b => Except.ok (layout, b)
      else Except.ok (layout, b)

/-- `Select::render` (`Widget::render` for `Select`).  The height cache is
refreshed and, on the first render (`page_end == usize::MAX` sentinel), the
window is computed, before anything is written to the backend.  The state
after the call is returned alongside the propagated result, because the Rust
`&mut self` mutations survive an early error return.  `none` models the
`init_page` panic on an empty cache, which no constructed `Select` can
reach. -/
def Select.render (s : Select) (layout : Layout) (b : Backend) :
    Option (Select × Except Nat (Layout × Backend)) :=
  let s1 := s.update_heights layout
  (if s1.page_end = usizeMax then s1.init_page else some s1).map
    (fun s2 => (s2, s2.render_body layout b))

/-- The `Delimiter` enum of `prompt.rs`. -/
inductive Delimiter
  | Parentheses
  | Braces
  | SquareBracket
  | AngleBracket
  | Other (first second : Char)
  | None
deriving DecidableEq, Repr

/-- `From<Delimiter> for Option<(char, char)>`. -/
def Delimiter.toPair : Delimiter → Option (Char × Char)
  | Delimiter.Parentheses => some ('(', ')')
  | Delimiter.Braces => some ('\x7b', '\x7d')
  | Delimiter.SquareBracket => some ('[', ']')
  | Delimiter.AngleBracket => some ('<', '>')
  | Delimiter.Other a b => some (a, b)
  | Delimiter.None => none

/-- The `Prompt` struct of `prompt.rs`.  `message_len` and `hint_len` cache
the character counts (`chars().count()`); the `u16::try_from` guard, which
panics above `u16::MAX`, is not needed over `Nat`. -/
structure Prompt where
  message : String
  hint : Option String
  delim : Delimiter
  message_len : Nat
  hint_len : Nat

/-- `Prompt::new`. -/
def Prompt.new (message : String) : Prompt :=
  { message := message
    hint := none
    delim := Delimiter.Parentheses
    message_len := message.length
    hint_len := 0 }

/-- `Prompt::with_hint`. -/
def Prompt.with_hint (p : Prompt) (hint : String) : Prompt :=
  { p with hint_len := hint.length, hint := some hint }

/-- `Prompt::with_delim`. -/
def Prompt.with_delim (p : Prompt) (delim : Delimiter) : Prompt :=
  { p with delim := delim }

/-- The `Prompt::hint_len` method (named `hint_display_len` here because the
Lean name `Prompt.hint_len` is taken by the field): the on-screen width of the
hint, plus 2 when a delimiter pair wraps it. -/
def Prompt.hint_display_len (p : Prompt) : Nat :=
  if p.hint.isSome then
    match p.delim with
    | Delimiter.None => p.hint_len
    | _ => p.hint_len + 2
  else 0

/-- `Prompt::width`: `? <message> <hint> ` with a hint, `? <message> > ` (a
1-column arrow glyph) without. -/
def Prompt.width (p : Prompt) : Nat :=
  if p.hint.isSome then 2 + p.message_len + 1 + p.hint_display_len + 1
  else 2 + p.message_len + 3

/-- A concrete layout for the concrete scenarios: a 100 x 100 terminal with no
columns consumed. -/
def wlayout : Layout :=
  { line_offset := 0, offset_x := 0, offset_y := 0, width := 100, height := 100,
    max_height := 100, render_region := RenderRegion.Middle }

/-- A concrete list: 3 selectable one-line items, page size 5, no looping. -/
def wl3 : ListSpec :=
  { len := 3, is_selectable := fun _ => true, page_size := 5, should_loop := false,
    height_at := fun _ _ => 1 }

/-- The `Select` obtained from `Select.new wl3`. -/
def ws3 : Select :=
  { first_selectable := 0, last_selectable := 2, at_ := 0, page_start := 0,
    page_end := usizeMax, page_start_height := u16Max, page_end_height := u16Max,
    height := u16Max, heights := none, list := wl3 }

/-- A concrete list with a single selectable item and looping enabled. -/
def wl1 : ListSpec :=
  { len := 1, is_selectable := fun _ => true, page_size := 5, should_loop := true,
    height_at := fun _ _ => 1 }

/-- A concrete list: 20 selectable one-line items, page size 5, no looping
(the concrete scenario of claim C3). -/
def wl20 : ListSpec :=
  { len := 20, is_selectable := fun _ => true, page_size := 5, should_loop := false,
    height_at := fun _ _ => 1 }

/-- A concrete list like `wl3` but with looping enabled. -/
def wl3loop : ListSpec :=
  { len := 3, is_selectable := fun _ => true, page_size := 5, should_loop := true,
    height_at := fun _ _ => 1 }

/-- The `Select` obtained from `Select.new wl3loop`. -/
def ws3loop : Select :=
  { first_selectable := 0, last_selectable := 2, at_ := 0, page_start := 0,
    page_end := usizeMax, page_start_height := u16Max, page_end_height := u16Max,
    height := u16Max, heights := none, list := wl3loop }

/-- A concrete list whose first item is 5 lines tall: [5, 1, 1], page size 5,
no looping. -/
def wlTall : ListSpec :=
  { len := 3, is_selectable := fun _ => true, page_size := 5, should_loop := false,
    height_at := fun i _ => if i = 0 then 5 else 1 }

/-- A `Select` over `wlTall` hovering index 1, with the height cache already
populated (as after one render at `wlayout`) and the window computed. -/
def wsTall : Select :=
  { first_selectable := 0, last_selectable := 2, at_ := 1, page_start := 0,
    page_end := 1, page_start_height := 4, page_end_height := 1,
    height := 7, heights := some { heights := [5, 1, 1], prev_layout := wlayout },
    list := wlTall }

/-- A `Select` over `wl20` with the height cache populated and the window
already initialized to `[0, 3]` (the state after one successful render at
`wlayout`). -/
def ws20r : Select :=
  { first_selectable := 0, last_selectable := 19, at_ := 0, page_start := 0,
    page_end := 3, page_start_height := 1, page_end_height := 1,
    height := 20, heights := some { heights := List.replicate 20 1, prev_layout := wlayout },
    list := wl20 }

/-- The construction-time facts about the cached selectable extremes; they
are stored once by `Select::new` and never mutated afterwards. -/
def Select.StaticOK (s : Select) : Prop :=
  s.first_selectable < s.list.len ∧ s.last_selectable < s.list.len ∧
  s.list.is_selectable s.first_selectable = true ∧
  s.list.is_selectable s.last_selectable = true ∧
  s.first_selectable ≤ s.last_selectable

/-- The hovered index is a selectable index in `[0, len)`. -/
def Select.AtOK (s : Select) : Prop :=
  s.list.is_selectable s.at_ = true ∧ s.at_ < s.list.len

theorem findFromAux_eq_some {sel : Nat → Bool} :
    ∀ {n i j : Nat}, findFromAux sel n i = some j →
      i ≤ j ∧ j < i + n ∧ sel j = true ∧ ∀ k, i ≤ k → k < j → sel k = false := by
  intro n
  induction n with
  | zero => intro i j h; simp [findFromAux] at h
  | succ n ih =>
    intro i j h
    unfold findFromAux at h
    by_cases hs : sel i
    · rw [if_pos hs] at h
      cases h
      exact ⟨le_refl _, by omega, hs, fun k hk1 hk2 => absurd hk1 (by omega)⟩
    · rw [if_neg hs] at h
      obtain ⟨h1, h2, h3, h4⟩ := ih h
      refine ⟨by omega, by omega, h3, fun k hk1 hk2 => ?_⟩
      rcases Nat.eq_or_lt_of_le hk1 with rfl | hk
      · exact Bool.eq_false_iff.mpr hs
      · exact h4 k hk hk2

theorem findFromAux_eq_none_iff {sel : Nat → Bool} :
    ∀ {n i : Nat}, findFromAux sel n i = none ↔ ∀ k, i ≤ k → k < i + n → sel k = false := by
  intro n
  induction n with
  | zero => intro i; simp [findFromAux]; intro k h1 h2; omega
  | succ n ih =>
    intro i
    unfold findFromAux
    by_cases hs : sel i
    · rw [if_pos hs]
      simp only [reduceCtorEq, false_iff, not_forall]
      exact ⟨i, le_refl _, by omega, by simp [hs]⟩
    · rw [if_neg hs, ih]
      constructor
      · intro h k hk1 hk2
        rcases Nat.eq_or_lt_of_le hk1 with rfl | hk
        · exact Bool.eq_false_iff.mpr hs
        · exact h k hk (by omega)
      · intro h k hk1 hk2
        exact h k (by omega) (by omega)

theorem rfindFrom_eq_some {sel : Nat → Bool} :
    ∀ {n j : Nat}, rfindFrom sel n = some j →
      j < n ∧ sel j = true ∧ ∀ k, j < k → k < n → sel k = false := by
  intro n
  induction n with
  | zero => intro j h; simp [rfindFrom] at h
  | succ n ih =>
    intro j h
    unfold rfindFrom at h
    by_cases hs : sel n
    · rw [if_pos hs] at h
      cases h
      exact ⟨by omega, hs, fun k hk1 hk2 => by omega⟩
    · rw [if_neg hs] at h
      obtain ⟨h1, h2, h3⟩ := ih h
      refine ⟨by omega, h2, fun k hk1 hk2 => ?_⟩
      rcases Nat.lt_succ_iff_lt_or_eq.mp hk2 with hk | rfl
      · exact h3 k hk1 hk
      · exact Bool.eq_false_iff.mpr hs

theorem rfindFrom_eq_none_iff {sel : Nat → Bool} :
    ∀ {n : Nat}, rfindFrom sel n = none ↔ ∀ k, k < n → sel k = false := by
  intro n
  induction n with
  | zero => simp [rfindFrom]
  | succ n ih =>
    unfold rfindFrom
    by_cases hs : sel n
    · rw [if_pos hs]
      simp only [reduceCtorEq, false_iff, not_forall]
      exact ⟨n, by omega, by simp [hs]⟩
    · rw [if_neg hs, ih]
      constructor
      · intro h k hk
        rcases Nat.lt_succ_iff_lt_or_eq.mp hk with hk | rfl
        · exact h k hk
        · exact Bool.eq_false_iff.mpr hs
      · intro h k hk
        exact h k (by omega)

theorem scan_next_reaches {l : ListSpec} :
    ∀ (fuel a j : Nat), a < j → j < l.len → l.is_selectable j = true → j - a ≤ fuel →
      l.is_selectable (l.scan_next fuel a) = true ∧
      a < l.scan_next fuel a ∧ l.scan_next fuel a ≤ j := by
  intro fuel
  induction fuel with
  | zero => intro a j h1 h2 h3 h4; omega
  | succ fuel ih =>
    intro a j h1 h2 h3 h4
    have ha1 : a + 1 < l.len := by omega
    have hstep : (a + 1) % l.len = a + 1 := Nat.mod_eq_of_lt ha1
    unfold ListSpec.scan_next
    simp only [hstep]
    by_cases hs : l.is_selectable (a + 1)
    · rw [if_pos hs]
      exact ⟨hs, by omega, by
        rcases Nat.eq_or_lt_of_le (Nat.succ_le_of_lt h1) with h | h
        · omega
        · omega⟩
    · rw [if_neg hs]
      have hj : a + 1 < j := by
        rcases Nat.eq_or_lt_of_le (Nat.succ_le_of_lt h1) with h | h
        · rw [← h] at h3; exact absurd h3 hs
        · exact h
      obtain ⟨g1, g2, g3⟩ := ih (a + 1) j hj h2 h3 (by omega)
      exact ⟨g1, by omega, g3⟩

theorem scan_prev_exact {l : ListSpec} :
    ∀ (fuel a j : Nat), j < a → a ≤ l.len → l.is_selectable j = true →
      (∀ k, j < k → k < a → l.is_selectable k = false) → a - j ≤ fuel →
      l.scan_prev fuel a = j := by
  intro fuel
  induction fuel with
  | zero => intro a j h1 h2 h3 h4 h5; omega
  | succ fuel ih =>
    intro a j h1 h2 h3 h4 h5
    have hlen : 0 < l.len := by omega
    have hstep : (l.len + a - 1) % l.len = a - 1 := by
      have : l.len + a - 1 = l.len + (a - 1) := by omega
      rw [this, Nat.add_mod_left]
      exact Nat.mod_eq_of_lt (by omega)
    unfold ListSpec.scan_prev
    simp only [hstep]
    by_cases hj : j = a - 1
    · rw [if_pos (hj ▸ h3), hj]
    · have hja : j < a - 1 := by omega
      rw [if_neg (by simp [h4 (a - 1) hja (by omega)])]
      exact ih (a - 1) j hja (by omega) h3 (fun k hk1 hk2 => h4 k hk1 (by omega)) (by omega)

theorem scan_prev_reaches {l : ListSpec} :
    ∀ (fuel a : Nat), 0 < a → a ≤ l.len → (∃ j, j < a ∧ l.is_selectable j = true) →
      a ≤ fuel →
      l.is_selectable (l.scan_prev fuel a) = true ∧ l.scan_prev fuel a < l.len := by
  intro fuel
  induction fuel with
  | zero => intro a h1 h2 h3 h4; omega
  | succ fuel ih =>
    intro a h1 h2 h3 h4
    have hlen : 0 < l.len := by omega
    have hstep : (l.len + a - 1) % l.len = a - 1 := by
      have : l.len + a - 1 = l.len + (a - 1) := by omega
      rw [this, Nat.add_mod_left]
      exact Nat.mod_eq_of_lt (by omega)
    unfold ListSpec.scan_prev
    simp only [hstep]
    by_cases hs : l.is_selectable (a - 1)
    · rw [if_pos hs]
      exact ⟨hs, by omega⟩
    · rw [if_neg hs]
      obtain ⟨j, hj1, hj2⟩ := h3
      have hja : j < a - 1 := by
        rcases Nat.lt_or_ge j (a - 1) with h | h
        · exact h
        · have : j = a - 1 := by omega
          exact absurd (this ▸ hj2) hs
      exact ih (a - 1) (by omega) (by omega) ⟨j, hja, hj2⟩ (by omega)

theorem next_selectable_ok (s : Select)
    (hf : s.list.is_selectable s.first_selectable = true)
    (hfl : s.first_selectable < s.list.len)
    (hl : s.list.is_selectable s.last_selectable = true)
    (hll : s.last_selectable < s.list.len) :
    s.list.is_selectable s.next_selectable = true ∧ s.next_selectable < s.list.len := by
  unfold Select.next_selectable
  by_cases hc : s.last_selectable ≤ s.at_
  · rw [if_pos hc]
    by_cases hloop : s.list.should_loop
    · rw [if_pos hloop]; exact ⟨hf, hfl⟩
    · rw [if_neg hloop]; exact ⟨hl, hll⟩
  · rw [if_neg hc]
    have hat : s.at_ < s.last_selectable := by omega
    have hmin : min s.at_ s.list.len = s.at_ := by omega
    rw [hmin]
    obtain ⟨g1, _, g3⟩ :=
      scan_next_reaches s.list.len s.at_ s.last_selectable hat hll hl (by omega)
    exact ⟨g1, by omega⟩

theorem prev_selectable_ok (s : Select)
    (hf : s.list.is_selectable s.first_selectable = true)
    (hfl : s.first_selectable < s.list.len)
    (hl : s.list.is_selectable s.last_selectable = true)
    (hll : s.last_selectable < s.list.len) :
    s.list.is_selectable s.prev_selectable = true ∧ s.prev_selectable < s.list.len := by
  unfold Select.prev_selectable
  by_cases hc : s.at_ ≤ s.first_selectable
  · rw [if_pos hc]
    by_cases hloop : s.list.should_loop
    · rw [if_pos hloop]; exact ⟨hl, hll⟩
    · rw [if_neg hloop]; exact ⟨hf, hfl⟩
  · rw [if_neg hc]
    have hat : s.first_selectable < s.at_ := by omega
    exact scan_prev_reaches s.list.len (min s.at_ s.list.len) (by omega)
      (Nat.min_le_right _ _) ⟨s.first_selectable, by omega, hf⟩ (Nat.min_le_right _ _)

theorem adjust_page_shape {s t : Select} {m : Movement} (h : s.adjust_page m = some t) :
    ∃ a b c d, t = { s with page_start := a, page_start_height := b,
                            page_end := c, page_end_height := d } := by
  unfold Select.adjust_page at h
  cases hh : s.heights with
  | none => rw [hh] at h; exact absurd h (by simp)
  | some hc =>
    rw [hh] at h
    cases m <;> dsimp only at h <;>
      simp only [reduceIte, reduceCtorEq, Option.some.injEq] at h
    · exact ⟨_, _, _, _, h.symm⟩
    · exact ⟨_, _, _, _, h.symm⟩

theorem init_page_shape {s t : Select} (h : s.init_page = some t) :
    ∃ a b c d, t = { s with page_start := a, page_start_height := b,
                            page_end := c, page_end_height := d } := by
  unfold Select.init_page at h
  cases hh : s.heights with
  | none => rw [hh] at h; exact absurd h (by simp)
  | some hc =>
    rw [hh] at h
    dsimp only at h
    split at h <;> simp only [Option.some.injEq] at h <;> exact ⟨_, _, _, _, h.symm⟩

theorem try_adjust_page_shape {s t : Select} {m : Movement} (h : s.try_adjust_page m = some t) :
    ∃ a b c d, t = { s with page_start := a, page_start_height := b,
                            page_end := c, page_end_height := d } := by
  unfold Select.try_adjust_page at h
  split at h
  · exact adjust_page_shape h
  · simp only [Option.some.injEq] at h
    exact ⟨s.page_start, s.page_start_height, s.page_end, s.page_end_height, h.symm⟩

theorem page_up_main_inv {s u : Select} (hS : s.StaticOK) (h : s.page_up_main = some u) :
    u.StaticOK ∧ u.AtOK := by
  unfold Select.page_up_main at h
  dsimp only at h
  rw [Option.bind_eq_some] at h
  obtain ⟨s2, ha, h⟩ := h
  obtain ⟨a, b, c, d, rfl⟩ := adjust_page_shape ha
  split at h
  · obtain ⟨a', b', c', d', rfl⟩ := init_page_shape h
    exact ⟨hS, hS.2.2.1, hS.1⟩
  · simp only [Option.some.injEq] at h
    rw [← h]
    refine ⟨hS, ?_⟩
    exact next_selectable_ok
      { s with at_ := a, page_start := a, page_start_height := b,
               page_end := c, page_end_height := d }
      hS.2.2.1 hS.1 hS.2.2.2.1 hS.2.1

theorem page_down_main_inv {s u : Select} (hS : s.StaticOK) (h : s.page_down_main = some u) :
    u.StaticOK ∧ u.AtOK := by
  unfold Select.page_down_main at h
  dsimp only at h
  rw [Option.bind_eq_some] at h
  obtain ⟨s2, ha, h⟩ := h
  obtain ⟨a, b, c, d, rfl⟩ := adjust_page_shape ha
  split at h
  · rw [Option.map_eq_some'] at h
    obtain ⟨s3, hb, h⟩ := h
    obtain ⟨a', b', c', d', rfl⟩ := adjust_page_shape hb
    rw [← h]
    exact ⟨hS, hS.2.2.2.1, hS.2.1⟩
  · simp only [Option.some.injEq] at h
    rw [← h]
    refine ⟨hS, ?_⟩
    exact prev_selectable_ok
      { s with at_ := c, page_start := a, page_start_height := b,
               page_end := c, page_end_height := d }
      hS.2.2.1 hS.1 hS.2.2.2.1 hS.2.1

theorem hk_move_inv {s t : Select} {m mv : Movement} (hS : s.StaticOK) (_hA : s.AtOK)
    (h : s.hk_move m = HkOut.moved t mv) : t.StaticOK ∧ t.AtOK := by
  cases m with
  | Up =>
    unfold Select.hk_move at h
    dsimp only at h
    split at h
    · simp only [HkOut.moved.injEq] at h
      rw [← h.1]
      exact ⟨hS, prev_selectable_ok s hS.2.2.1 hS.1 hS.2.2.2.1 hS.2.1⟩
    · exact absurd h (by simp)
  | Down =>
    unfold Select.hk_move at h
    dsimp only at h
    split at h
    · simp only [HkOut.moved.injEq] at h
      rw [← h.1]
      exact ⟨hS, next_selectable_ok s hS.2.2.1 hS.1 hS.2.2.2.1 hS.2.1⟩
    · exact absurd h (by simp)
  | PageUp =>
    unfold Select.hk_move at h
    dsimp only at h
    split at h
    · split at h
      · exact absurd h (by simp)
      · simp only [HkOut.moved.injEq] at h
        rw [← h.1]
        exact ⟨hS, hS.2.2.1, hS.1⟩
    · cases hm : s.page_up_main with
      | none => rw [hm] at h; exact absurd h (by simp)
      | some u =>
        rw [hm] at h
        dsimp only at h
        simp only [HkOut.moved.injEq] at h
        rw [← h.1]
        exact page_up_main_inv hS hm
  | PageDown =>
    unfold Select.hk_move at h
    dsimp only at h
    split at h
    · split at h
      · exact absurd h (by simp)
      · simp only [HkOut.moved.injEq] at h
        rw [← h.1]
        exact ⟨hS, hS.2.2.2.1, hS.2.1⟩
    · cases hm : s.page_down_main with
      | none => rw [hm] at h; exact absurd h (by simp)
      | some u =>
        rw [hm] at h
        dsimp only at h
        simp only [HkOut.moved.injEq] at h
        rw [← h.1]
        exact page_down_main_inv hS hm
  | Home =>
    unfold Select.hk_move at h
    dsimp only at h
    split at h
    · simp only [HkOut.moved.injEq] at h
      rw [← h.1]
      exact ⟨hS, hS.2.2.1, hS.1⟩
    · exact absurd h (by simp)
  | End =>
    unfold Select.hk_move at h
    dsimp only at h
    split at h
    · simp only [HkOut.moved.injEq] at h
      rw [← h.1]
      exact ⟨hS, hS.2.2.2.1, hS.2.1⟩
    · exact absurd h (by simp)

theorem handle_key_inv {s s' : Select} {om : Option Movement} {b : Bool}
    (hS : s.StaticOK) (hA : s.AtOK) (h : s.handle_key om = some (s', b)) :
    s'.StaticOK ∧ s'.AtOK := by
  unfold Select.handle_key at h
  cases om with
  | none =>
    simp only [Option.some.injEq, Prod.mk.injEq] at h
    rw [← h.1]
    exact ⟨hS, hA⟩
  | some m =>
    dsimp only at h
    cases hmk : s.hk_move m with
    | ret_false =>
      rw [hmk] at h
      simp only [Option.some.injEq, Prod.mk.injEq] at h
      rw [← h.1]
      exact ⟨hS, hA⟩
    | panicked => rw [hmk] at h; exact absurd h (by simp)
    | moved t mv =>
      rw [hmk] at h
      dsimp only at h
      obtain ⟨htS, htA⟩ := hk_move_inv hS hA hmk
      split at h
      · rw [Option.map_eq_some'] at h
        obtain ⟨t2, htap, h⟩ := h
        obtain ⟨a, b', c, d, rfl⟩ := try_adjust_page_shape htap
        simp only [Prod.mk.injEq] at h
        rw [← h.1]
        exact ⟨htS, htA⟩
      · simp only [Option.some.injEq, Prod.mk.injEq] at h
        rw [← h.1]
        exact ⟨htS, htA⟩

theorem run_keys_inv {s s' : Select} {ms : List (Option Movement)}
    (hS : s.StaticOK) (hA : s.AtOK) (h : s.run_keys ms = some s') :
    s'.StaticOK ∧ s'.AtOK := by
  induction ms generalizing s with
  | nil =>
    unfold Select.run_keys at h
    simp only [Option.some.injEq] at h
    rw [← h]
    exact ⟨hS, hA⟩
  | cons m ms ih =>
    unfold Select.run_keys at h
    rw [Option.bind_eq_some] at h
    obtain ⟨⟨t, b⟩, hk, h⟩ := h
    obtain ⟨h1, h2⟩ := handle_key_inv hS hA hk
    exact ih h1 h2 h

theorem new_inv {l : ListSpec} {s0 : Select} (h : Select.new l = some s0) :
    s0.StaticOK ∧ s0.AtOK := by
  unfold Select.new at h
  cases h1 : l.first_selectable? with
  | none => rw [h1] at h; exact absurd h (by simp)
  | some f =>
    rw [h1] at h
    dsimp only at h
    cases h2 : l.last_selectable? with
    | none => rw [h2] at h; exact absurd h (by simp)
    | some g =>
      rw [h2] at h
      dsimp only at h
      split at h
      · exact absurd h (by simp)
      · simp only [Option.some.injEq] at h
        obtain ⟨hf1, hf2, hf3, hf4⟩ := findFromAux_eq_some h1
        obtain ⟨hg1, hg2, hg3⟩ := rfindFrom_eq_some h2
        have hfg : f ≤ g := by
          by_contra hc
          have := hf4 g (by omega) (by omega)
          rw [this] at hg2
          exact absurd hg2 (by simp)
        rw [← h]
        refine ⟨⟨?_, hg1, hf3, hg2, hfg⟩, hf3, ?_⟩
        · show f < l.len
          omega
        · show f < l.len
          omega

/-- C1: for every `Select` constructed from a list with at least one
selectable item, `first_selectable <= last_selectable` and both index
selectable items, and after any finite sequence of `handle_key` calls that
completes without panicking, the hovered index `at` is a selectable index in
`[0, len)`. -/
theorem c1_select_at_invariant (l : ListSpec) (s0 s : Select) (ms : List (Option Movement))
    (hnew : Select.new l = some s0) (hrun : s0.run_keys ms = some s) :
    s.first_selectable ≤ s.last_selectable ∧
    s.list.is_selectable s.first_selectable = true ∧
    s.list.is_selectable s.last_selectable = true ∧
    s.list.is_selectable s.at_ = true ∧ s.at_ < s.list.len := by
  obtain ⟨hS0, hA0⟩ := new_inv hnew
  obtain ⟨hS, hA⟩ := run_keys_inv hS0 hA0 hrun
  exact ⟨hS.2.2.2.2, hS.2.2.1, hS.2.2.2.1, hA.1, hA.2⟩

/-- Witness for C1: the concrete non-looping 3-item `Select` after one
handled `Down` key. -/
theorem c1_witness :
    ({ ws3 with at_ := 1 } : Select).first_selectable ≤
      ({ ws3 with at_ := 1 } : Select).last_selectable ∧
    ({ ws3 with at_ := 1 } : Select).list.is_selectable
      ({ ws3 with at_ := 1 } : Select).first_selectable = true ∧
    ({ ws3 with at_ := 1 } : Select).list.is_selectable
      ({ ws3 with at_ := 1 } : Select).last_selectable = true ∧
    ({ ws3 with at_ := 1 } : Select).list.is_selectable
      ({ ws3 with at_ := 1 } : Select).at_ = true ∧
    ({ ws3 with at_ := 1 } : Select).at_ < ({ ws3 with at_ := 1 } : Select).list.len :=
  c1_select_at_invariant wl3 ws3 { ws3 with at_ := 1 } [some Movement.Down] rfl rfl

/-- C9: when looping is enabled and at least two selectable items exist,
`next_selectable` followed by `prev_selectable` (with `at` set to the result
of the former) returns to the original selectable index. -/
theorem c9_next_prev_round_trip (s : Select)
    (hf : s.list.first_selectable? = some s.first_selectable)
    (hl : s.list.last_selectable? = some s.last_selectable)
    (hloop : s.list.should_loop = true)
    (h2 : ∃ i j, i < s.list.len ∧ j < s.list.len ∧ i ≠ j ∧
      s.list.is_selectable i = true ∧ s.list.is_selectable j = true)
    (hat : s.list.is_selectable s.at_ = true) (hlt : s.at_ < s.list.len) :
    ({ s with at_ := s.next_selectable } : Select).prev_selectable = s.at_ := by
  obtain ⟨_, hfl, hfsel, hfmin⟩ := findFromAux_eq_some hf
  obtain ⟨hll, hlsel, hlmax⟩ := rfindFrom_eq_some hl
  have hfirst_le : ∀ a, a < s.list.len → s.list.is_selectable a = true →
      s.first_selectable ≤ a := by
    intro a ha hsel
    by_contra hc
    rw [hfmin a (by omega) (by omega)] at hsel
    exact absurd hsel (by simp)
  have hle_last : ∀ a, a < s.list.len → s.list.is_selectable a = true →
      a ≤ s.last_selectable := by
    intro a ha hsel
    by_contra hc
    rw [hlmax a (by omega) ha] at hsel
    exact absurd hsel (by simp)
  have hflt : s.first_selectable < s.last_selectable := by
    obtain ⟨i, j, hi, hj, hij, hseli, hselj⟩ := h2
    have h1 := hfirst_le i hi hseli
    have h2 := hfirst_le j hj hselj
    have h3 := hle_last i hi hseli
    have h4 := hle_last j hj hselj
    omega
  by_cases hc : s.last_selectable ≤ s.at_
  · have hat_last : s.at_ = s.last_selectable := by
      have := hle_last s.at_ hlt hat
      omega
    have hnext : s.next_selectable = s.first_selectable := by
      unfold Select.next_selectable
      rw [if_pos hc, if_pos hloop]
    rw [hnext]
    unfold Select.prev_selectable
    dsimp only
    rw [if_pos (le_refl s.first_selectable), if_pos hloop]
    exact hat_last.symm
  · have hatlast : s.at_ < s.last_selectable := by omega
    have hnext : s.next_selectable = s.list.scan_next s.list.len s.at_ := by
      unfold Select.next_selectable
      rw [if_neg hc]
      congr 1
      omega
    have hex : ∃ j, s.at_ < j ∧ j < s.list.len ∧ s.list.is_selectable j = true :=
      ⟨s.last_selectable, hatlast, hll, hlsel⟩
    set jmin := Nat.find hex with hjmin_def
    obtain ⟨hj1, hj2, hj3⟩ := Nat.find_spec hex
    obtain ⟨g1, g2, g3⟩ := scan_next_reaches s.list.len s.at_ jmin hj1 hj2 hj3 (by omega)
    have hreq : s.list.scan_next s.list.len s.at_ = jmin := by
      have hge : jmin ≤ s.list.scan_next s.list.len s.at_ :=
        Nat.find_min' hex ⟨g2, by omega, g1⟩
      omega
    rw [hnext, hreq]
    have hng : ¬ (jmin ≤ s.first_selectable) := by
      have := hfirst_le s.at_ hlt hat
      omega
    unfold Select.prev_selectable
    dsimp only
    rw [if_neg hng]
    have hminr : min jmin s.list.len = jmin := by omega
    rw [hminr]
    refine scan_prev_exact s.list.len jmin s.at_ hj1 (by omega) hat ?_ (by omega)
    intro k hk1 hk2
    have hknot := Nat.find_min hex hk2
    by_contra hselk
    exact hknot ⟨hk1, by omega, by simpa using hselk⟩

/-- Witness for C9 at the concrete looping 3-item `Select`. -/
theorem c9_witness :
    ({ ws3loop with at_ := ws3loop.next_selectable } : Select).prev_selectable =
      ws3loop.at_ :=
  c9_next_prev_round_trip ws3loop rfl rfl rfl
    ⟨0, 1, by decide, by decide, by decide, rfl, rfl⟩ rfl (by decide)

theorem foldl_eq_of_step_eq {α β : Type} (f g : α → β → α) (hfg : ∀ a b, f a b = g a b) :
    ∀ (l : List β) (a : α), l.foldl f a = l.foldl g a := by
  intro l
  induction l with
  | nil => intro a; rfl
  | cons b l ih => intro a; rw [List.foldl_cons, List.foldl_cons, hfg, ih]

theorem adjust_step_eq_amended (heights : List Nat) (max_height : Nat) :
    ∀ acc c, adjust_step heights max_height acc c =
      adjust_step_amended heights max_height acc c := by
  intro acc c
  unfold adjust_step adjust_step_amended
  dsimp only
  by_cases hh : max_height ≤ acc.2.2
  · rw [if_pos hh, if_pos hh]
  · rw [if_neg hh, if_neg hh]
    by_cases hc : c.2 = true
    · simp only [hc, if_pos]
    · simp only [hc, if_neg, Bool.false_eq_true, if_false]
      have hm : min (acc.2.2 + heights.getD c.1 0) max_height - acc.2.2 =
          min (heights.getD c.1 0) (max_height - acc.2.2) := by omega
      rw [hm]

/-- C2 (amended): `adjust_page(moved)` anchors the candidate window at `at`
with its own height, consumes neighbors first from the direction moved from,
then the single opposite-direction neighbor, then the rest again from the
first direction; every consumed direction-chain neighbor contributes its
natural height clipped to the remaining budget (so only the final consumed
neighbor can contribute less than its natural height), while the single
opposite-direction neighbor contributes exactly 1 line regardless of its
natural height; accumulation starts from the height of `at` and stops once
the running total reaches `page_size() - 1`; for `moved == Down` the
direction-chain boundary becomes `page_start` and the opposite neighbor
becomes `page_end` (mirrored for `moved == Up`), with the boundaries and
their heights written together. -/
theorem c2_adjust_page_amended_eq (s : Select) (m : Movement) :
    s.adjust_page m = s.adjust_page_amended m := by
  unfold Select.adjust_page Select.adjust_page_amended
  cases s.heights with
  | none => rfl
  | some hc =>
    cases m
    case Down =>
      dsimp only
      rw [foldl_eq_of_step_eq (adjust_step hc.heights (s.page_size - 1))
        (adjust_step_amended hc.heights (s.page_size - 1))
        (adjust_step_eq_amended hc.heights (s.page_size - 1))]
    case Up =>
      dsimp only
      rw [foldl_eq_of_step_eq (adjust_step hc.heights (s.page_size - 1))
        (adjust_step_amended hc.heights (s.page_size - 1))
        (adjust_step_eq_amended hc.heights (s.page_size - 1))]
    all_goals rfl

/-- Counterexample to C2 as literally stated: on a list with natural heights
`[5, 1, 1]`, hovering index 1 and moving `Down` with budget
`page_size() - 1 = 4`, the direction neighbor (index 0, natural height 5) is
recorded as `page_start` with visible height 3 (its natural height clipped to
the remaining budget), while the literal reading of the claim ("every
neighbor contributes its natural height") would record 5. -/
theorem c2_counterexample :
    (wsTall.adjust_page Movement.Down).map (fun t => (t.page_start, t.page_start_height)) =
      some (0, 3) ∧
    (wsTall.adjust_page_claim Movement.Down).map (fun t => (t.page_start, t.page_start_height)) =
      some (0, 5) ∧
    wsTall.list.height_at 0 wlayout = 5 :=
  ⟨rfl, rfl, rfl⟩

theorem init_step_eq_claim (heights : List Nat) (max_height : Nat) :
    ∀ acc i, init_step heights max_height acc i =
      init_step_claim heights max_height acc i := by
  intro acc i
  unfold init_step init_step_claim
  dsimp only
  by_cases hh : max_height ≤ acc.2.2
  · rw [if_pos hh, if_pos hh]
  · rw [if_neg hh, if_neg hh]
    have hm : min (acc.2.2 + heights.getD i 0) max_height - acc.2.2 =
        min (heights.getD i 0) (max_height - acc.2.2) := by omega
    rw [hm]

/-- C3: `init_page` always sets `page_start = 0`; when paginating it walks
items from index 1 forward accumulating natural heights with budget
`page_size() - 1`, the last item touched becoming `page_end` with
`page_end_height` clipped to exactly fill the remaining budget; when not
paginating it sets `page_end = len - 1` with that item's full natural height
(this is `init_page_claim`, the claim text as a definition); and for a list
of 20 selectable items of height 1 each with `page_size = 5`, the initial
window is indices 0 through 3. -/
theorem c3_init_page_spec (s : Select) :
    s.init_page = s.init_page_claim ∧
    s.init_page.map (fun t => t.page_start) = s.init_page.map (fun _ => 0) ∧
    ((Select.new wl20).bind (fun s0 => (s0.update_heights wlayout).init_page)).map
      (fun t => (t.page_start, t.page_end, t.page_end_height)) = some (0, 3, 1) := by
  refine ⟨?_, ?_, rfl⟩
  · unfold Select.init_page Select.init_page_claim
    cases s.heights with
    | none => rfl
    | some hc =>
      dsimp only
      split
      · rw [foldl_eq_of_step_eq (init_step hc.heights _) (init_step_claim hc.heights _)
          (init_step_eq_claim hc.heights _)]
      · rfl
  · unfold Select.init_page
    cases s.heights with
    | none => rfl
    | some hc =>
      dsimp only
      split <;> rfl

theorem op_error_eq {b : Backend} {e : Nat} (h : b.op = Except.error e) : e = b.err := by
  unfold Backend.op at h
  split at h
  · cases h; rfl
  · exact absurd h (by simp)

theorem op_ok_err {b b' : Backend} (h : b.op = Except.ok b') : b'.err = b.err := by
  unfold Backend.op at h
  split at h
  · exact absurd h (by simp)
  · cases h; rfl

theorem render_in_go_err {s : Select} {heights : List Nat} :
    ∀ (iter : List Nat) (layout : Layout) (b : Backend) (e : Nat),
      s.render_in_go heights iter layout b = Except.error e → e = b.err := by
  intro iter
  induction iter with
  | nil => intro layout b e h; exact absurd h (by simp [Select.render_in_go])
  | cons i rest ih =>
    intro layout b e h
    unfold Select.render_in_go at h
    dsimp only at h
    cases hop : render_item_op b with
    | error e1 =>
      rw [hop] at h
      cases h
      exact op_error_eq hop
    | ok b1 =>
      rw [hop] at h
      dsimp only at h
      cases hop2 : b1.op with
      | error e2 =>
        rw [hop2] at h
        cases h
        rw [op_error_eq hop2]
        exact op_ok_err hop
      | ok b2 =>
        rw [hop2] at h
        dsimp only at h
        rw [ih _ _ _ h, op_ok_err hop2]
        exact op_ok_err hop

theorem render_in_err {s : Select} {iter : List Nat} {layout : Layout} {b : Backend} {e : Nat}
    (h : s.render_in iter layout b = Except.error e) : e = b.err := by
  unfold Select.render_in at h
  cases hgo : s.render_in_go ((s.heights.map Heights.heights).getD []) iter layout b with
  | error e1 =>
    rw [hgo] at h
    cases h
    exact render_in_go_err iter layout b _ hgo
  | ok p =>
    rw [hgo] at h
    exact absurd h (by simp)

theorem render_in_go_ok_err {s : Select} {heights : List Nat} :
    ∀ (iter : List Nat) (layout : Layout) (b : Backend) (p : Layout × Backend),
      s.render_in_go heights iter layout b = Except.ok p → p.2.err = b.err := by
  intro iter
  induction iter with
  | nil =>
    intro layout b p h
    unfold Select.render_in_go at h
    cases h
    rfl
  | cons i rest ih =>
    intro layout b p h
    unfold Select.render_in_go at h
    dsimp only at h
    cases hop : render_item_op b with
    | error e1 => rw [hop] at h; exact absurd h (by simp)
    | ok b1 =>
      rw [hop] at h
      dsimp only at h
      cases hop2 : b1.op with
      | error e2 => rw [hop2] at h; exact absurd h (by simp)
      | ok b2 =>
        rw [hop2] at h
        dsimp only at h
        rw [ih _ _ _ h, op_ok_err hop2]
        exact op_ok_err hop

theorem render_in_ok_err {s : Select} {iter : List Nat} {layout : Layout} {b : Backend}
    {p : Layout × Backend} (h : s.render_in iter layout b = Except.ok p) : p.2.err = b.err := by
  unfold Select.render_in at h
  cases hgo : s.render_in_go ((s.heights.map Heights.heights).getD []) iter layout b with
  | error e1 => rw [hgo] at h; exact absurd h (by simp)
  | ok q =>
    rw [hgo] at h
    cases h
    exact render_in_go_ok_err iter layout b q hgo

theorem render_body_err {s : Select} {layout : Layout} {b : Backend} {e : Nat}
    (h : s.render_body layout b = Except.error e) : e = b.err := by
  unfold Select.render_body at h
  dsimp only at h
  by_cases hlo : layout.line_offset ≠ 0
  · rw [if_pos hlo] at h
    cases hop : b.op with
    | error e1 =>
      rw [hop] at h
      cases h
      exact op_error_eq hop
    | ok b1 =>
      rw [hop] at h
      dsimp only at h
      split at h
      · rename_i e2 heq
        cases h
        rw [render_in_err heq]
        exact op_ok_err hop
      · rename_i l2 b2 heq
        split at h
        · cases hop2 : b2.op with
          | error e3 =>
            rw [hop2] at h
            cases h
            rw [op_error_eq hop2, render_in_ok_err heq]
            exact op_ok_err hop
          | ok b3 =>
            rw [hop2] at h
            dsimp only at h
            cases hop3 : b3.op with
            | error e4 =>
              rw [hop3] at h
              cases h
              rw [op_error_eq hop3, op_ok_err hop2, render_in_ok_err heq]
              exact op_ok_err hop
            | ok b4 =>
              rw [hop3] at h
              exact absurd h (by simp)
        · exact absurd h (by simp)
  · rw [if_neg hlo] at h
    dsimp only at h
    split at h
    · rename_i e2 heq
      cases h
      exact render_in_err heq
    · rename_i l2 b2 heq
      split at h
      · cases hop2 : b2.op with
        | error e3 =>
          rw [hop2] at h
          cases h
          rw [op_error_eq hop2]
          exact render_in_ok_err heq
        | ok b3 =>
          rw [hop2] at h
          dsimp only at h
          cases hop3 : b3.op with
          | error e4 =>
            rw [hop3] at h
            cases h
            rw [op_error_eq hop3, op_ok_err hop2]
            exact render_in_ok_err heq
          | ok b4 =>
            rw [hop3] at h
            exact absurd h (by simp)
      · exact absurd h (by simp)

theorem update_heights_fields (s : Select) (l : Layout) :
    (s.update_heights l).at_ = s.at_ ∧ (s.update_heights l).page_start = s.page_start ∧
    (s.update_heights l).page_end = s.page_end ∧
    (s.update_heights l).first_selectable = s.first_selectable ∧
    (s.update_heights l).last_selectable = s.last_selectable ∧
    (s.update_heights l).list = s.list := by
  unfold Select.update_heights
  cases hh : s.heights with
  | none => exact ⟨rfl, rfl, rfl, rfl, rfl, rfl⟩
  | some hc =>
    dsimp only
    split <;> exact ⟨rfl, rfl, rfl, rfl, rfl, rfl⟩

/-- Counterexample to C4 as literally stated: on the very first render
(`page_end` still the `usize::MAX` sentinel), a backend whose first write
fails still receives the propagated error, but the engine state after the
failed call has `page_end = 3`, not the sentinel it had before the call: the
window bounds are not "the same after the failed render call as before
it". -/
theorem c4_counterexample :
    ((Select.new wl20).bind (fun s => (s.render wlayout { budget := 0, err := 42 }).map
      (fun r => (r.2, s.page_end, r.1.page_end)))) =
      some (Except.error 42, usizeMax, 3) :=
  rfl

/-- C4 (amended): a backend failure during `render` is returned to the caller
unchanged (the propagated error is exactly the backend's error value), the
hover index `at` is never changed by `render`, and whenever the window was
already initialized before the call (`page_end` differs from the
`usize::MAX` sentinel) the window bounds `page_start`/`page_end` are also
unchanged, so a retried render is safe; on the first render the window is
deterministically initialized before any backend write. -/
theorem c4_render_failure_state (s : Select) (layout : Layout) (b : Backend)
    (s' : Select) (r : Except Nat (Layout × Backend))
    (h : s.render layout b = some (s', r)) :
    s'.at_ = s.at_ ∧
    (s.page_end ≠ usizeMax → s'.page_start = s.page_start ∧ s'.page_end = s.page_end) ∧
    (∀ e, r = Except.error e → e = b.err) := by
  unfold Select.render at h
  dsimp only at h
  rw [Option.map_eq_some'] at h
  obtain ⟨s2, hsel, heq⟩ := h
  simp only [Prod.mk.injEq] at heq
  obtain ⟨hs', hr⟩ := heq
  obtain ⟨u1, u2, u3, _, _, _⟩ := update_heights_fields s layout
  split at hsel
  · rename_i hpe
    obtain ⟨a, bb, c, d, rfl⟩ := init_page_shape hsel
    refine ⟨?_, ?_, ?_⟩
    · rw [← hs']
      exact u1
    · intro hne
      rw [u3] at hpe
      exact absurd hpe hne
    · intro e hre
      exact render_body_err (hr.trans hre)
  · rename_i hpe
    simp only [Option.some.injEq] at hsel
    refine ⟨?_, ?_, ?_⟩
    · rw [← hs', ← hsel]
      exact u1
    · intro hne
      rw [← hs', ← hsel]
      exact ⟨u2, u3⟩
    · intro e hre
      exact render_body_err (hr.trans hre)

/-- Witness for C4 (amended) at a concrete initialized `Select` and a backend
with enough budget: the render succeeds and the state is untouched. -/
theorem c4_witness :
    ws20r.at_ = ws20r.at_ ∧
    (ws20r.page_end ≠ usizeMax →
      ws20r.page_start = ws20r.page_start ∧ ws20r.page_end = ws20r.page_end) ∧
    (∀ e, (Except.ok ({ wlayout with offset_y := 5 }, { budget := 90, err := 7 }) :
        Except Nat (Layout × Backend)) =
      Except.error e → e = ({ budget := 100, err := 7 } : Backend).err) :=
  c4_render_failure_state ws20r wlayout { budget := 100, err := 7 } ws20r
    (Except.ok ({ wlayout with offset_y := 5 }, { budget := 90, err := 7 })) rfl

/-- C8: starting from a `Select` without a height cache, calling the widget
`height` twice in succession with the same layout value returns the same
number both times and leaves the state of the first call untouched; the cache
then holds exactly `len()` entries (so it never grows beyond `len()`); and
for any state with a cache, the refresh is a no-op exactly when the stored
layout equals the current one, while a differing or absent cache triggers a
full recompute via `height_at` with `line_offset` forced to 0, summed into
`height`. -/
theorem c8_height_idempotent (s : Select) (l : Layout) (h0 : s.heights = none) :
    (s.widget_height l).1 = (((s.widget_height l).2.1).widget_height l).1 ∧
    (((s.widget_height l).2.1).widget_height l).2.1 = (s.widget_height l).2.1 ∧
    (∃ hc, (s.widget_height l).2.1.heights = some hc ∧
      hc.heights.length = s.list.len) ∧
    (∀ (t : Select) (hc : Heights), t.heights = some hc →
      (hc.prev_layout = l → t.update_heights l = t) ∧
      (hc.prev_layout ≠ l → t.update_heights l =
        { t with
          heights := some
            { heights := (List.range t.list.len).map
                (fun i => t.list.height_at i { l with line_offset := 0 })
              prev_layout := l }
          height := ((List.range t.list.len).map
            (fun i => t.list.height_at i { l with line_offset := 0 })).sum })) ∧
    s.update_heights l =
      { s with
        heights := some
          { heights := (List.range s.list.len).map
              (fun i => s.list.height_at i { l with line_offset := 0 })
            prev_layout := l }
        height := ((List.range s.list.len).map
          (fun i => s.list.height_at i { l with line_offset := 0 })).sum } := by
  have hnoop : ∀ (t : Select) (hc : Heights), t.heights = some hc → hc.prev_layout = l →
      t.update_heights l = t := by
    intro t hc ht heq
    unfold Select.update_heights
    rw [ht]
    dsimp only
    rw [if_neg (by simp [heq])]
  have hdiff : ∀ (t : Select) (hc : Heights), t.heights = some hc → hc.prev_layout ≠ l →
      t.update_heights l =
        { t with
          heights := some
            { heights := (List.range t.list.len).map
                (fun i => t.list.height_at i { l with line_offset := 0 })
              prev_layout := l }
          height := ((List.range t.list.len).map
            (fun i => t.list.height_at i { l with line_offset := 0 })).sum } := by
    intro t hc ht hne
    unfold Select.update_heights
    rw [ht]
    dsimp only
    rw [if_pos hne]
  have hrec : s.update_heights l =
      { s with
        heights := some
          { heights := (List.range s.list.len).map
              (fun i => s.list.height_at i { l with line_offset := 0 })
            prev_layout := l }
        height := ((List.range s.list.len).map
          (fun i => s.list.height_at i { l with line_offset := 0 })).sum } := by
    unfold Select.update_heights
    rw [h0]
  have hcacheR : (s.update_heights l).heights = some
      { heights := (List.range s.list.len).map
          (fun i => s.list.height_at i { l with line_offset := 0 })
        prev_layout := l } := by
    rw [hrec]
  have hstep : (s.update_heights l).update_heights l = s.update_heights l :=
    hnoop _ _ hcacheR rfl
  refine ⟨?_, ?_, ?_, fun t hc ht => ⟨hnoop t hc ht, hdiff t hc ht⟩, hrec⟩
  · unfold Select.widget_height
    dsimp only
    rw [hstep]
  · unfold Select.widget_height
    dsimp only
    rw [hstep]
  · exact ⟨_, hcacheR, by simp⟩

/-- Witness for C8 at the concrete fresh 3-item `Select` and the concrete
layout: the two successive height queries agree. -/
theorem c8_witness :
    (ws3.widget_height wlayout).1 = (((ws3.widget_height wlayout).2.1).widget_height wlayout).1 :=
  (c8_height_idempotent ws3 wlayout rfl).1

/-- C6: constructing a `Select` over a list with zero selectable items, or
over a list whose `page_size()` is below 5, aborts (modelled by `none`, so no
partially constructed value exists), and these are the only construction
failure modes. -/
theorem c6_new_failure_modes (l : ListSpec) :
    Select.new l = none ↔
      (∀ i, i < l.len → l.is_selectable i = false) ∨ l.page_size < 5 := by
  unfold Select.new
  cases h1 : l.first_selectable? with
  | none =>
    simp only [true_iff]
    left
    intro i hi
    exact (findFromAux_eq_none_iff.mp h1) i (by omega) (by omega)
  | some f =>
    obtain ⟨hf1, hf2, hf3, hf4⟩ := findFromAux_eq_some h1
    cases h2 : l.last_selectable? with
    | none =>
      exact absurd hf3 (by
        simp [rfindFrom_eq_none_iff.mp h2 f (by omega)])
    | some g =>
      by_cases hp : l.page_size < 5
      · simp only [if_pos hp, true_iff]
        right; exact hp
      · simp only [if_neg hp, reduceCtorEq, false_iff, not_or, not_forall, not_lt]
        refine ⟨⟨f, by omega, by simp [hf3]⟩, by omega⟩

/-- C7: with looping disabled, `Up` at `first_selectable` and `Down` at
`last_selectable` are not handled: `handle_key` returns `false` and leaves
the whole state unchanged. -/
theorem c7_noloop_boundary_noops (s : Select) (hl : s.list.should_loop = false) :
    (s.at_ = s.first_selectable → s.handle_key (some Movement.Up) = some (s, false)) ∧
    (s.at_ = s.last_selectable → s.handle_key (some Movement.Down) = some (s, false)) := by
  constructor
  · intro h
    have hcond : ¬ (s.list.should_loop = true ∨ s.first_selectable < s.at_) := by
      rw [hl, h]; simp
    simp only [Select.handle_key, Select.hk_move, if_neg hcond]
  · intro h
    have hcond : ¬ (s.list.should_loop = true ∨ s.at_ < s.last_selectable) := by
      rw [hl, h]; simp
    simp only [Select.handle_key, Select.hk_move, if_neg hcond]

/-- Witness for C7 at a concrete non-looping `Select`: `Up` at the first
selectable index is a no-op returning `false`. -/
theorem c7_witness :
    ws3.handle_key (some Movement.Up) = some (ws3, false) ∧
    ({ ws3 with at_ := 2 } : Select).handle_key (some Movement.Down) =
      some ({ ws3 with at_ := 2 }, false) :=
  ⟨(c7_noloop_boundary_noops ws3 rfl).1 rfl,
   (c7_noloop_boundary_noops { ws3 with at_ := 2 } rfl).2 rfl⟩

/-- C5: on a freshly constructed `Select` (no render or height call yet, so
the height cache is absent while `height = u16::MAX` makes `is_paginating()`
true), a handled movement whose `at_outside_page()` test passes reaches
`adjust_page`, which unwraps the absent cache: the call panics (modelled by
`none`) instead of returning a `Bool`. -/
theorem c5_handle_key_before_render_panics :
    (Select.new wl1).isSome = true ∧
    (Select.new wl1).bind (fun s => s.handle_key (some Movement.Up)) = none :=
  ⟨rfl, rfl⟩

/-- C10: a prompt's on-screen width is `2 + message_length + 1 +
hint_display_length + 1` with a hint (where the hint display length adds 2
for a delimiter pair and nothing for `Delimiter::None`), and
`2 + message_length + 3` without one; in particular "Hello" with no hint has
width 10 and "Hello" with hint "world" and the default parentheses delimiter
has width 16. -/
theorem c10_prompt_width (p : Prompt) :
    (p.hint.isSome = true →
      (p.delim ≠ Delimiter.None →
        p.width = 2 + p.message_len + 1 + (p.hint_len + 2) + 1) ∧
      (p.delim = Delimiter.None →
        p.width = 2 + p.message_len + 1 + p.hint_len + 1)) ∧
    (p.hint = none → p.width = 2 + p.message_len + 3) ∧
    (Prompt.new "Hello").width = 10 ∧
    ((Prompt.new "Hello").with_hint "world").width = 16 := by
  refine ⟨fun hh => ⟨fun hd => ?_, fun hd => ?_⟩, fun hh => ?_, rfl, rfl⟩
  · unfold Prompt.width Prompt.hint_display_len
    rw [if_pos hh, if_pos hh]
    cases hdm : p.delim <;> simp_all
  · unfold Prompt.width Prompt.hint_display_len
    rw [if_pos hh, if_pos hh, hd]
  · unfold Prompt.width
    rw [if_neg (by simp [hh])]

/-- Witness for C10 at the concrete prompt "Hello" with hint "world" and the
default parentheses delimiter. -/
theorem c10_witness :
    ((Prompt.new "Hello").with_hint "world").width =
      2 + ((Prompt.new "Hello").with_hint "world").message_len + 1 +
        (((Prompt.new "Hello").with_hint "world").hint_len + 2) + 1 :=
  ((c10_prompt_width ((Prompt.new "Hello").with_hint "world")).1 rfl).1 (by decide)

end Inquisition
